import Mathlib

/-
Verification of the annotation-store module (src/Annotation.py).

The SQLite table `frames (frame, object, class, contour, final)` is embedded
as a list of records in row (insertion) order; plain SELECTs without ORDER BY
return rows in that order, and LIMIT 1 takes the head.  The `classes` table is
a list of class names, and the `session` table is a pair (video file, current
frame).  A connection's committed/uncommitted split is a pair of databases
`mem`/`disk`: `execute` edits `mem`, `connection.commit()` copies `mem` to
`disk`.
-/

/-- One row of the `frames` table.  `contour` is the stored text column:
`add` joins the integer point list with single spaces before inserting. -/
structure FrameRecord where
  frame : Int
  object : Int
  className : String
  contour : String
  final : Bool
deriving DecidableEq

/-- Rows returned by `SELECT * FROM frames WHERE object = ?`, in row order. -/
def recordsOf (db : List FrameRecord) (obj_id : Int) : List FrameRecord :=
  db.filter (fun r => r.object = obj_id)

/-- `Annotation.get(frame_number, obj_id)`: all rows of the frame, optionally
restricted to one object. -/
def get (db : List FrameRecord) (frame_number : Int) (obj_id : Option Int) :
    List FrameRecord :=
  match obj_id with
  | some oid => db.filter (fun r => r.frame = frame_number ∧ r.object = oid)
  | none => db.filter (fun r => r.frame = frame_number)

/-- `Annotation.get_frames_indexes_of_id(obj_id)`: column 0 of every row whose
object matches, in row order (no sorting, no deduplication). -/
def get_frames_indexes_of_id (db : List FrameRecord) (obj_id : Int) : List Int :=
  (db.filter (fun r => r.object = obj_id)).map (fun r => r.frame)

/-- `Annotation.get_max_id()`: `SELECT max(object) FROM frames`; the SQL `max`
of no rows is NULL, which the `except TypeError` branch turns into 0. -/
def get_max_id (db : List FrameRecord) : Int :=
  match db.map (fun r => r.object) with
  | [] => 0
  | x :: xs => xs.foldl max x

/-- The text stored in the `contour` column by `Annotation.add`:
`' '.join([str(x) for x in contour])`. -/
def encodeContour (contour : List Int) : String :=
  String.intercalate (" ") (contour.map (fun x => toString x))

/-- The distinct raise sites of `Annotation.combine_objects` (all `ValueError`
in the source, distinguished by message). -/
inductive MergeError where
  | invalidId
  | unknownObject
  | overlappingOccupancy
deriving DecidableEq

/-- `Annotation.combine_objects(from_id, to_id)` on the `frames` table: the
four validation checks in source order, then
`SELECT class FROM frames WHERE object = to_id LIMIT 1` (head of the
matching rows) and
`UPDATE frames SET object = to_id, class = that class WHERE object = from_id`. -/
def combine_objects (db : List FrameRecord) (from_id to_id : Int) :
    Except MergeError (List FrameRecord) :=
  if from_id ≤ 0 ∨ to_id ≤ 0 then
    Except.error MergeError.invalidId
  else if recordsOf db from_id = [] then
    Except.error MergeError.unknownObject
  else if recordsOf db to_id = [] then
    Except.error MergeError.unknownObject
  else if db.any (fun r => r.object = from_id ∧
      db.any (fun s => s.object = to_id ∧ s.frame = r.frame)) then
    Except.error MergeError.overlappingOccupancy
  else
    match recordsOf db to_id with
    | [] => Except.error MergeError.unknownObject
    | r0 :: _ =>
      Except.ok (db.map (fun r =>
        if r.object = from_id then
          { r with object := to_id, className := r0.className }
        else r))

/-- Contents of one annotation database file: the `frames`, `classes` and
`session` tables. -/
structure DB where
  frames : List FrameRecord
  classes : List String
  sessionVideo : String
  sessionFrame : Int
deriving DecidableEq

/-- An open store: the connection's uncommitted view `mem`, the durable file
contents `disk`, and the in-memory session fields `_current_frame` /
`_num_frames`. -/
structure Store where
  mem : DB
  disk : DB
  currentFrame : Int
  numFrames : Int
deriving DecidableEq

/-- `self.connection.commit()`: the uncommitted view becomes durable. -/
def commit (s : Store) : Store :=
  { s with disk := s.mem }

/-- Replace the `frames` table in the connection view. -/
def setFrames (s : Store) (fr : List FrameRecord) : Store :=
  { s with mem := { s.mem with frames := fr } }

/-- Replace the `classes` table in the connection view. -/
def setClasses (s : Store) (cs : List String) : Store :=
  { s with mem := { s.mem with classes := cs } }

/-- Replace the `session` current-frame column in the connection view. -/
def setSession (s : Store) (n : Int) : Store :=
  { s with mem := { s.mem with sessionFrame := n } }

/-- Errors of the session-level operations. -/
inductive OpError where
  | duplicateClass
  | illegalName
deriving DecidableEq

/-- `Annotation.add_class(class_name)`: a bare INSERT into `classes`
(`class_name text unique`, so a duplicate raises), with NO commit. -/
def add_class (s : Store) (class_name : String) : Except OpError Store :=
  if class_name ∈ s.mem.classes then
    Except.error OpError.duplicateClass
  else
    Except.ok (setClasses s (s.mem.classes ++ [class_name]))

/-- `Annotation.add(frame_number, object_id, class_name, contour, final)`:
INSERT of one row (contour space-joined) followed by a commit. -/
def add (s : Store) (frame_number object_id : Int) (class_name : String)
    (contour : List Int) (final : Bool) : Store :=
  commit (setFrames s
    (s.mem.frames ++ [⟨frame_number, object_id, class_name, encodeContour contour, final⟩]))

/-- `Annotation.remove(object_id, frame)`: DELETE by object, optionally also
by frame, followed by a commit. -/
def remove (s : Store) (object_id : Int) (frame : Option Int) : Store :=
  match frame with
  | none => commit (setFrames s
      (s.mem.frames.filter (fun r => ¬ r.object = object_id)))
  | some f => commit (setFrames s
      (s.mem.frames.filter (fun r => ¬ (r.object = object_id ∧ r.frame = f))))

/-- `Annotation.change_class(obj_id, class_name)`: UPDATE of every row of the
object, followed by a commit. -/
def change_class (s : Store) (obj_id : Int) (class_name : String) : Store :=
  commit (setFrames s
    (s.mem.frames.map (fun r =>
      if r.object = obj_id then { r with className := class_name } else r)))

/-- `Annotation.finalize_object(obj_id, frame_number)`: sets `final = 1` on
the rows matching both keys, followed by a commit. -/
def finalize_object (s : Store) (obj_id frame_number : Int) : Store :=
  commit (setFrames s
    (s.mem.frames.map (fun r =>
      if r.object = obj_id ∧ r.frame = frame_number then { r with final := true } else r)))

/-- `Annotation.finalize_frame(frame_number)`: sets `final = 1` on every row
of the frame, followed by a commit. -/
def finalize_frame (s : Store) (frame_number : Int) : Store :=
  commit (setFrames s
    (s.mem.frames.map (fun r =>
      if r.frame = frame_number then { r with final := true } else r)))

/-- `Annotation.set_frame(frame_number)`: out-of-range requests return after a
log line, leaving everything untouched; in-range requests set the cursor,
UPDATE the `session` row and commit. -/
def set_frame (s : Store) (frame_number : Int) : Store :=
  if frame_number < 1 ∨ frame_number > s.numFrames then s
  else commit (setSession { s with currentFrame := frame_number } frame_number)

/-- `Annotation.combine_objects` at store level: the UPDATE applies to the
connection view and is committed; each raise happens before the UPDATE. -/
def combineObjectsStore (s : Store) (from_id to_id : Int) :
    Except MergeError Store :=
  match combine_objects s.mem.frames from_id to_id with
  | Except.error e => Except.error e
  | Except.ok fr => Except.ok (commit (setFrames s fr))

/-- The store as left by `combine_objects`: on a raise the exception
propagates and the store keeps its pre-call state. -/
def combineObjectsRun (s : Store) (from_id to_id : Int) : Store :=
  match combineObjectsStore s from_id to_id with
  | Except.error _ => s
  | Except.ok s2 => s2

/-- `Annotation.get_frame_image()`: `self.cap` is modelled as an optional
frame-reading function (opencv capture), addressed 0-based at
`current_frame - 1`.  With no capture the function returns None with no error;
with a capture, a failed read raises `VideoLoadError`. -/
def get_frame_image {Image : Type} (cap : Option (Int → Option Image))
    (current_frame : Int) : Except Int (Option Image) :=
  match cap with
  | none => Except.ok none
  | some readFrame =>
    match readFrame (current_frame - 1) with
    | some img => Except.ok (some img)
    | none => Except.error current_frame

/-
Export pipeline (`Annotation.export`).  Pixels are abstract indices (Nat);
the Qt rasterization surface is a parameter `fill` saying which pixels a
stored contour text covers, colors are integer RGB triples.  The canvas is
filled with 0 and each record's polygon is painted opaquely in record order,
so a pixel shows the color of the last record covering it.
-/

/-- The color a canvas pixel ends with after the record loop of
`Annotation.export`: black from `qt_image.fill(0)`, overwritten by
`colormap[:, r[1]]` for each record `r` whose polygon covers the pixel. -/
def paintPixel (colormap : Int → Int × Int × Int) (fill : String → Nat → Bool)
    (records : List FrameRecord) (p : Nat) : Int × Int × Int :=
  records.foldl (fun acc r => if fill r.contour p then colormap r.object else acc) (0, 0, 0)

/-- The `frame_colors` list built by `Annotation.export`: one color per record
of the frame, in record order. -/
def frame_colors (colormap : Int → Int × Int × Int) (records : List FrameRecord) :
    List (Int × Int × Int) :=
  records.map (fun r => colormap r.object)

/-- The object drawn topmost at a pixel: the last record in draw order whose
polygon covers it, if any. -/
def topmostObject (fill : String → Nat → Bool) (records : List FrameRecord)
    (p : Nat) : Option Int :=
  records.foldl (fun acc r => if fill r.contour p then some r.object else acc) none

/-- One pixel of the 16-bit label image: the decode loop
`result += inverse_colormap[tuple(c)] * mask` over `frame_colors`, where
`mask` is 1 exactly when the canvas pixel equals the color `c`.  `result` is
allocated as `np.zeros(..., dtype=np.uint16)`, so every in-place addition
stores the 16-bit value: the accumulator wraps modulo 2^16. -/
def decodePixel (inverse_colormap : Int × Int × Int → Int)
    (colors : List (Int × Int × Int)) (pixel_color : Int × Int × Int) : Int :=
  colors.foldl
    (fun acc c => (acc + (if pixel_color = c then inverse_colormap c else 0)) % 65536) 0

/-- The frames for which `Annotation.export` writes an artifact: the loop
skips a frame (`continue`) exactly when it has no records, and otherwise
writes one file named by the frame number. -/
def exportedFrames (db : List FrameRecord) (frames : List Int) : List Int :=
  frames.filter (fun f => ¬ get db f none = [])

/-
Save lifecycle (`Annotation.save`).  The durable layer is an association list
from path to file contents; the store keeps the bound `_filename` and the
connection view `mem` of the bound file.  `shutil.copy` duplicates the bound
file (committed just before) to the target path; afterwards the temporary
workspace file is removed and the store re-binds to the new path.
-/

/-- `Annotation.TEMP_WORKING_FILENAME`. -/
def TEMP_WORKING_FILENAME : String := ".working.atc"

/-- Write (create or overwrite) a file. -/
def fsWrite (fs : List (String × DB)) (path : String) (d : DB) :
    List (String × DB) :=
  (path, d) :: fs.filter (fun e => ¬ e.1 = path)

/-- Read a file if present. -/
def fsRead (fs : List (String × DB)) (path : String) : Option DB :=
  match fs.filter (fun e => e.1 = path) with
  | [] => none
  | e :: _ => some e.2

/-- Delete a file if present. -/
def fsRemove (fs : List (String × DB)) (path : String) : List (String × DB) :=
  fs.filter (fun e => ¬ e.1 = path)

/-- A bound session for the save lifecycle: the bound `_filename`, the durable
file system, and the connection's view of the bound file. -/
structure SaveState where
  filename : String
  fs : List (String × DB)
  mem : DB
deriving DecidableEq

/-- `Annotation.save(filename)`: a request for the bound path does nothing at
all; a request for the reserved temporary name raises `ValueError` before any
mutation; any other request commits, copies the bound file to the target,
removes the temporary workspace file (both the pre-copy removal when it was
the binding and the final leftover cleanup), and re-binds to the target. -/
def save (s : SaveState) (filename : String) : Except OpError SaveState :=
  if filename = s.filename then
    Except.ok s
  else if filename = TEMP_WORKING_FILENAME then
    Except.error OpError.illegalName
  else
    let fs0 := fsWrite s.fs s.filename s.mem
    let fs1 := fsWrite fs0 filename ((fsRead fs0 s.filename).getD s.mem)
    let fs2 := if s.filename = TEMP_WORKING_FILENAME then fsRemove fs1 s.filename else fs1
    let fs3 := if (fsRead fs2 TEMP_WORKING_FILENAME).isSome then
                 fsRemove fs2 TEMP_WORKING_FILENAME else fs2
    Except.ok { filename := filename, fs := fs3,
                mem := (fsRead fs3 filename).getD s.mem }

/-
Concrete example data used by the witness and counterexample theorems below.
-/

/-- An empty annotation database bound to some video. -/
def exDB : DB := ⟨[], [], "video.avi", 1⟩

/-- An open store over a 10-frame video whose tables hold `fr`, with the
connection view committed. -/
def mkStore (fr : List FrameRecord) : Store :=
  ⟨⟨fr, [], "video.avi", 1⟩, ⟨fr, [], "video.avi", 1⟩, 1, 10⟩

/-- An open store with empty tables. -/
def exStore : Store := mkStore []

/-- Records with object ids 3, 7, 2 (the spec's `get_max_id` example). -/
def exdb6 : List FrameRecord :=
  [⟨1, 3, "cat", "0 0 1 1 0 1", false⟩,
   ⟨2, 7, "cat", "0 0 1 1 0 1", false⟩,
   ⟨3, 2, "dog", "0 0 1 1 0 1", false⟩]

/-- Object 1 observed in frame 5 first and then in frame 3 (insertion order
is not frame order). -/
def exdb9 : List FrameRecord :=
  [⟨5, 1, "cat", "0 0 1 1 0 1", false⟩,
   ⟨3, 1, "cat", "0 0 1 1 0 1", false⟩]

/-- Objects 1 and 2 on disjoint frames, both class-uniform. -/
def exdb1 : List FrameRecord :=
  [⟨1, 1, "cat", "0 0 1 1 0 1", false⟩,
   ⟨2, 2, "dog", "0 0 1 1 0 1", false⟩]

/-- Objects 1 and 2 sharing frame 5. -/
def exdbOv : List FrameRecord :=
  [⟨5, 1, "cat", "0 0 1 1 0 1", false⟩,
   ⟨5, 2, "dog", "0 0 1 1 0 1", false⟩]

/-- The store produced by `add_class` on the empty store: the class sits in
the connection view only. -/
def exStoreP : Store := ⟨⟨[], ["person"], "video.avi", 1⟩, ⟨[], [], "video.avi", 1⟩, 1, 10⟩

/-- A session bound to the reserved temporary workspace name itself (as after
loading an existing file literally named `.working.atc`). -/
def exSaveTemp : SaveState :=
  ⟨TEMP_WORKING_FILENAME, [(TEMP_WORKING_FILENAME, exDB)], exDB⟩

/-- A session bound to an ordinary named annotation file. -/
def exSaveNamed : SaveState := ⟨"a.atc", [("a.atc", exDB)], exDB⟩

/-- Example colormap: object id in the red channel. -/
def exColormap : Int → Int × Int × Int := fun obj_id => (obj_id, 0, 0)

/-- Inverse of `exColormap`. -/
def exInverse : Int × Int × Int → Int := fun c => c.1

/-- Example rasterization surface: every polygon covers every pixel. -/
def exFill : String → Nat → Bool := fun _ _ => true

/-- One record for object 5 in frame 1; frame 2 stays empty. -/
def exdb3 : List FrameRecord := [⟨1, 5, "cat", "0 0 2 0 1 2", true⟩]

/-- One record whose object id 65536 does not fit in 16 bits. -/
def exdbBig : List FrameRecord := [⟨1, 65536, "cat", "0 0 2 0 1 2", true⟩]

/-
Helper lemmas about `foldl max`, mirroring the SQL `max` aggregate.
-/

theorem get_some (db : List FrameRecord) (f oid : Int) :
    get db f (some oid) = db.filter (fun r => r.frame = f ∧ r.object = oid) := rfl

theorem get_none (db : List FrameRecord) (f : Int) :
    get db f none = db.filter (fun r => r.frame = f) := rfl

theorem foldl_max_init_le (xs : List Int) (a : Int) : a ≤ xs.foldl max a := by
  induction xs generalizing a with
  | nil => simp
  | cons x ys ih => exact le_trans (le_max_left a x) (ih (max a x))

theorem foldl_max_le_of_mem (xs : List Int) (a x : Int) (hx : x ∈ xs) :
    x ≤ xs.foldl max a := by
  induction xs generalizing a with
  | nil => cases hx
  | cons y ys ih =>
    rcases List.mem_cons.mp hx with h | h
    · subst h
      exact le_trans (le_max_right a x) (foldl_max_init_le ys (max a x))
    · exact ih (max a y) h

theorem foldl_max_mem (xs : List Int) (a : Int) :
    xs.foldl max a = a ∨ xs.foldl max a ∈ xs := by
  induction xs generalizing a with
  | nil => exact Or.inl rfl
  | cons x ys ih =>
    rcases ih (max a x) with h | h
    · rw [List.foldl_cons, h]
      rcases max_choice a x with hm | hm
      · exact Or.inl hm
      · exact Or.inr (by rw [hm]; exact List.mem_cons_self x ys)
    · refine Or.inr (List.mem_cons_of_mem x ?_)
      rw [List.foldl_cons]
      exact h

/-- C6: `get_max_id()` returns 0 on a store with no records, and on a
non-empty store returns the maximum `object_id` over all records (it is the
id of some record and bounds every record's id). -/
theorem get_max_id_spec (db : List FrameRecord) :
    (db = [] → get_max_id db = 0) ∧
    (¬ db = [] → get_max_id db ∈ db.map (fun r => r.object) ∧
      ∀ r ∈ db, r.object ≤ get_max_id db) := by
  constructor
  · intro h; subst h; rfl
  · intro h
    cases db with
    | nil => exact absurd rfl h
    | cons r rest =>
      have hmax : get_max_id (r :: rest) =
          (rest.map (fun r => r.object)).foldl max r.object := rfl
      constructor
      · rcases foldl_max_mem (rest.map (fun r => r.object)) r.object with h1 | h1
        · rw [List.map_cons, hmax, h1]
          exact List.mem_cons_self _ _
        · rw [List.map_cons, hmax]
          exact List.mem_cons_of_mem _ h1
      · intro r2 hr2
        rcases List.mem_cons.mp hr2 with h2 | h2
        · subst h2
          rw [hmax]
          exact foldl_max_init_le _ _
        · rw [hmax]
          exact foldl_max_le_of_mem _ _ _ (List.mem_map_of_mem _ h2)

/-- C6 witness: on the spec's example ids {3, 7, 2} the maximum is 7, and by
the theorem it bounds every record id. -/
theorem get_max_id_spec_witness :
    get_max_id [] = 0 ∧ get_max_id exdb6 = 7 ∧
    ∀ r ∈ exdb6, r.object ≤ get_max_id exdb6 :=
  ⟨(get_max_id_spec []).1 rfl, by decide,
   fun r hr => ((get_max_id_spec exdb6).2 (by decide)).2 r hr⟩

/-- C9 counterexample: object 1 occupies frames 5 and 3 (inserted in that
order); `get_frames_indexes_of_id` returns [5, 3], which is not in ascending
frame order, refuting the claimed ordered-set result. -/
theorem get_frames_indexes_not_ascending :
    get_frames_indexes_of_id exdb9 1 = [5, 3] ∧
    ¬ List.Pairwise (fun x y => x ≤ y) (get_frames_indexes_of_id exdb9 1) := by
  constructor
  · decide
  · decide

/-- C9 amended: `get_frames_indexes_of_id(object_id)` returns the frame
numbers of the id's records in row (insertion) order, one entry per record,
neither sorted nor deduplicated: a frame is listed iff the id occupies it,
the length equals the number of the id's records, the order is the row order
of the id's records, and an absent id yields the empty sequence. -/
theorem get_frames_indexes_of_id_spec (db : List FrameRecord) (obj_id : Int) :
    (∀ f, f ∈ get_frames_indexes_of_id db obj_id ↔
      ∃ r ∈ db, r.object = obj_id ∧ r.frame = f) ∧
    (get_frames_indexes_of_id db obj_id).length = (recordsOf db obj_id).length ∧
    get_frames_indexes_of_id db obj_id = (recordsOf db obj_id).map (fun r => r.frame) ∧
    ((∀ r ∈ db, ¬ r.object = obj_id) → get_frames_indexes_of_id db obj_id = []) := by
  refine ⟨?_, ?_, rfl, ?_⟩
  · intro f
    simp only [get_frames_indexes_of_id, List.mem_map, List.mem_filter,
      decide_eq_true_eq]
    constructor
    · rintro ⟨r, ⟨hr, ho⟩, hf⟩
      exact ⟨r, hr, ho, hf⟩
    · rintro ⟨r, hr, ho, hf⟩
      exact ⟨r, ⟨hr, ho⟩, hf⟩
  · simp [get_frames_indexes_of_id, recordsOf]
  · intro h
    simp only [get_frames_indexes_of_id, List.map_eq_nil_iff, List.filter_eq_nil_iff,
      decide_eq_true_eq]
    exact h

/-- C9 amended witness: the concrete store above, evaluated through the
theorem: frame 5 is listed for object 1, frame 4 is not, and object 2
(absent) yields the empty sequence. -/
theorem get_frames_indexes_of_id_spec_witness :
    (5 : Int) ∈ get_frames_indexes_of_id exdb9 1 ∧
    ¬ (4 : Int) ∈ get_frames_indexes_of_id exdb9 1 ∧
    get_frames_indexes_of_id exdb9 2 = [] := by
  refine ⟨?_, ?_, ?_⟩
  · exact ((get_frames_indexes_of_id_spec exdb9 1).1 5).mpr (by decide)
  · intro h
    have h2 := ((get_frames_indexes_of_id_spec exdb9 1).1 4).mp h
    revert h2
    decide
  · exact (get_frames_indexes_of_id_spec exdb9 2).2.2.2 (by decide)

/-- C10: with no open capture, `get_frame_image` returns None and raises no
error; by contrast, with an open capture a failed read raises
`VideoLoadError` for the current frame. -/
theorem get_frame_image_no_capture {Image : Type} (current_frame : Int) :
    @get_frame_image Image none current_frame = Except.ok none ∧
    ∀ readFrame : Int → Option Image, readFrame (current_frame - 1) = none →
      get_frame_image (some readFrame) current_frame = Except.error current_frame := by
  constructor
  · rfl
  · intro rf h
    simp [get_frame_image, h]

/-- C10 witness: the no-capture call on frame 3 returns None; the same call
with a capture that fails to read raises. -/
theorem get_frame_image_no_capture_witness :
    @get_frame_image Nat none 3 = Except.ok none ∧
    @get_frame_image Nat (some (fun _ => none)) 3 = Except.error 3 :=
  ⟨(@get_frame_image_no_capture Nat 3).1,
   (@get_frame_image_no_capture Nat 3).2 (fun _ => none) rfl⟩

/-- C5: on a `(frame, object_id)` pair with no existing record, `add` followed
by `get(frame, object_id)` returns exactly one record, carrying the inserted
frame, object id, class name, space-joined contour text and final flag. -/
theorem add_then_get (s : Store) (frame_number object_id : Int)
    (class_name : String) (contour : List Int) (final : Bool)
    (hfree : get s.mem.frames frame_number (some object_id) = []) :
    get (add s frame_number object_id class_name contour final).mem.frames
        frame_number (some object_id) =
      [⟨frame_number, object_id, class_name, encodeContour contour, final⟩] := by
  rw [get_some] at hfree ⊢
  simp only [add, commit, setFrames]
  rw [List.filter_append, hfree]
  simp

/-- C5 witness: adding object 9 to frame 4 of the empty store and reading it
back yields exactly the inserted record. -/
theorem add_then_get_witness :
    get (add exStore 4 9 ("cat") [0, 0, 2, 0, 1, 2] true).mem.frames 4 (some 9) =
      [⟨4, 9, ("cat"), encodeContour [0, 0, 2, 0, 1, 2], true⟩] :=
  add_then_get exStore 4 9 ("cat") [0, 0, 2, 0, 1, 2] true (by decide)

/-- C7: `set_frame(n)` with `1 ≤ n ≤ num_frames` sets the cursor, writes it to
the session row and commits it durably; any out-of-range `n` leaves the store
exactly as it was (no error is raised: the function merely logs and returns). -/
theorem set_frame_spec (s : Store) (n : Int) :
    (1 ≤ n → n ≤ s.numFrames →
      (set_frame s n).currentFrame = n ∧
      (set_frame s n).mem.sessionFrame = n ∧
      (set_frame s n).disk = (set_frame s n).mem) ∧
    ((n < 1 ∨ s.numFrames < n) → set_frame s n = s) := by
  constructor
  · intro h1 h2
    have hc : ¬ (n < 1 ∨ n > s.numFrames) := by
      push_neg
      exact ⟨h1, h2⟩
    simp [set_frame, hc, commit, setSession]
  · intro h
    have hc : n < 1 ∨ n > s.numFrames := h
    simp [set_frame, hc]

/-- C7 witness: on a 10-frame store, `set_frame 5` sets and durably persists
the cursor, while `set_frame 0` and `set_frame 11` change nothing. -/
theorem set_frame_spec_witness :
    (set_frame exStore 5).currentFrame = 5 ∧
    (set_frame exStore 5).disk = (set_frame exStore 5).mem ∧
    set_frame exStore 0 = exStore ∧
    set_frame exStore 11 = exStore :=
  ⟨((set_frame_spec exStore 5).1 (by decide) (by decide)).1,
   ((set_frame_spec exStore 5).1 (by decide) (by decide)).2.2,
   (set_frame_spec exStore 0).2 (Or.inl (by decide)),
   (set_frame_spec exStore 11).2 (Or.inr (by decide))⟩

/-
Rejection paths of `combine_objects`, first at table level.
-/

theorem combine_objects_invalid (db : List FrameRecord) (a b : Int)
    (h : a ≤ 0 ∨ b ≤ 0) :
    combine_objects db a b = Except.error MergeError.invalidId := by
  unfold combine_objects
  rw [if_pos h]

theorem combine_objects_unknown (db : List FrameRecord) (a b : Int)
    (ha : 0 < a) (hb : 0 < b)
    (h : recordsOf db a = [] ∨ recordsOf db b = []) :
    combine_objects db a b = Except.error MergeError.unknownObject := by
  have h1 : ¬ (a ≤ 0 ∨ b ≤ 0) := by omega
  unfold combine_objects
  rw [if_neg h1]
  by_cases hfrom : recordsOf db a = []
  · rw [if_pos hfrom]
  · rcases h with h | h
    · exact absurd h hfrom
    · rw [if_neg hfrom, if_pos h]

theorem combine_objects_overlap (db : List FrameRecord) (a b : Int)
    (ha : 0 < a) (hb : 0 < b)
    (h : ∃ r ∈ db, r.object = a ∧ ∃ r2 ∈ db, r2.object = b ∧ r2.frame = r.frame) :
    combine_objects db a b = Except.error MergeError.overlappingOccupancy := by
  have h1 : ¬ (a ≤ 0 ∨ b ≤ 0) := by omega
  obtain ⟨r, hr, hro, r2, hr2, hr2o, hr2f⟩ := h
  have hfrom : ¬ recordsOf db a = [] := by
    apply List.ne_nil_of_mem (a := r)
    simp only [recordsOf, List.mem_filter, decide_eq_true_eq]
    exact ⟨hr, hro⟩
  have hto : ¬ recordsOf db b = [] := by
    apply List.ne_nil_of_mem (a := r2)
    simp only [recordsOf, List.mem_filter, decide_eq_true_eq]
    exact ⟨hr2, hr2o⟩
  have hov : db.any (fun r => r.object = a ∧
      db.any (fun s => s.object = b ∧ s.frame = r.frame)) = true := by
    simp only [List.any_eq_true, decide_eq_true_eq]
    exact ⟨r, hr, hro, r2, hr2, hr2o, hr2f⟩
  unfold combine_objects
  rw [if_neg h1, if_neg hfrom, if_neg hto, if_pos hov]

/-- C2: `combine_objects(a, b)` rejects with `InvalidIdError` when an id is
non-positive, with `UnknownObjectError` when either id has no records, and
with `OverlappingOccupancyError` when some frame holds records of both ids;
each raise happens before the UPDATE and commit, so the resulting store is
exactly the pre-call store. -/
theorem combine_objects_rejections (s : Store) (a b : Int) :
    ((a ≤ 0 ∨ b ≤ 0) →
      combineObjectsStore s a b = Except.error MergeError.invalidId ∧
      combineObjectsRun s a b = s) ∧
    (0 < a → 0 < b →
      (recordsOf s.mem.frames a = [] ∨ recordsOf s.mem.frames b = []) →
      combineObjectsStore s a b = Except.error MergeError.unknownObject ∧
      combineObjectsRun s a b = s) ∧
    (0 < a → 0 < b →
      (∃ r ∈ s.mem.frames, r.object = a ∧
        ∃ r2 ∈ s.mem.frames, r2.object = b ∧ r2.frame = r.frame) →
      combineObjectsStore s a b = Except.error MergeError.overlappingOccupancy ∧
      combineObjectsRun s a b = s) := by
  refine ⟨?_, ?_, ?_⟩
  · intro h
    have he := combine_objects_invalid s.mem.frames a b h
    constructor
    · simp [combineObjectsStore, he]
    · simp [combineObjectsRun, combineObjectsStore, he]
  · intro ha hb h
    have he := combine_objects_unknown s.mem.frames a b ha hb h
    constructor
    · simp [combineObjectsStore, he]
    · simp [combineObjectsRun, combineObjectsStore, he]
  · intro ha hb h
    have he := combine_objects_overlap s.mem.frames a b ha hb h
    constructor
    · simp [combineObjectsStore, he]
    · simp [combineObjectsRun, combineObjectsStore, he]

/-- C2 witness: on concrete stores, `combine_objects(0, 5)` rejects as an
invalid id, merging an absent id 3 rejects as unknown, and merging the two
objects sharing frame 5 rejects as overlapping; each time the store is
unchanged. -/
theorem combine_objects_rejections_witness :
    (combineObjectsStore (mkStore exdb1) 0 5 = Except.error MergeError.invalidId ∧
      combineObjectsRun (mkStore exdb1) 0 5 = mkStore exdb1) ∧
    (combineObjectsStore (mkStore exdb1) 3 1 = Except.error MergeError.unknownObject ∧
      combineObjectsRun (mkStore exdb1) 3 1 = mkStore exdb1) ∧
    (combineObjectsStore (mkStore exdbOv) 1 2 =
        Except.error MergeError.overlappingOccupancy ∧
      combineObjectsRun (mkStore exdbOv) 1 2 = mkStore exdbOv) :=
  ⟨(combine_objects_rejections (mkStore exdb1) 0 5).1 (Or.inl (by decide)),
   (combine_objects_rejections (mkStore exdb1) 3 1).2.1 (by decide) (by decide)
     (Or.inl (by decide)),
   (combine_objects_rejections (mkStore exdbOv) 1 2).2.2 (by decide) (by decide)
     ⟨⟨5, 1, "cat", "0 0 1 1 0 1", false⟩, by decide, by decide,
      ⟨5, 2, "dog", "0 0 1 1 0 1", false⟩, by decide, by decide, by decide⟩⟩

/-- C4 counterexample: `add_class` executes its INSERT but, unlike every
other mutator, never calls `connection.commit()`: on the pristine store the
new class is visible in the connection view yet absent from the durable file
when the call returns, refuting immediate durability for `add_class`. -/
theorem add_class_not_committed :
    add_class exStore ("person") = Except.ok exStoreP ∧
    ¬ exStoreP.mem = exStoreP.disk ∧
    exStoreP.disk = exStore.disk :=
  ⟨rfl, by decide, rfl⟩

/-- C4 amended: `add`, `remove`, `change_class`, `finalize_object`,
`finalize_frame`, in-range `set_frame` and successful `combine_objects` all
commit durably before returning (durable state equals the connection view
afterwards), and out-of-range `set_frame` performs no change at all; but
`add_class` returns without committing — its insert stays pending in the
connection view and the durable file is exactly as before the call. -/
theorem mutators_commit (s : Store) (f oid n a b : Int) (cn : String)
    (ct : List Int) (fin : Bool) (fr : Option Int) :
    ((add s f oid cn ct fin).disk = (add s f oid cn ct fin).mem) ∧
    ((remove s oid fr).disk = (remove s oid fr).mem) ∧
    ((change_class s oid cn).disk = (change_class s oid cn).mem) ∧
    ((finalize_object s oid f).disk = (finalize_object s oid f).mem) ∧
    ((finalize_frame s f).disk = (finalize_frame s f).mem) ∧
    (1 ≤ n → n ≤ s.numFrames → (set_frame s n).disk = (set_frame s n).mem) ∧
    (¬ (1 ≤ n ∧ n ≤ s.numFrames) → set_frame s n = s) ∧
    (∀ s2, combineObjectsStore s a b = Except.ok s2 → s2.disk = s2.mem) ∧
    (∀ s2, add_class s cn = Except.ok s2 → s2.disk = s.disk) := by
  refine ⟨rfl, ?_, rfl, rfl, rfl, ?_, ?_, ?_, ?_⟩
  · cases fr <;> rfl
  · intro h1 h2
    have hc : ¬ (n < 1 ∨ n > s.numFrames) := by omega
    simp [set_frame, hc, commit, setSession]
  · intro h
    have hc : n < 1 ∨ n > s.numFrames := by omega
    simp [set_frame, hc]
  · intro s2 h
    unfold combineObjectsStore at h
    cases hc : combine_objects s.mem.frames a b with
    | error e => rw [hc] at h; cases h
    | ok fr2 =>
      rw [hc] at h
      cases h
      rfl
  · intro s2 h
    unfold add_class at h
    by_cases hm : cn ∈ s.mem.classes
    · rw [if_pos hm] at h; cases h
    · rw [if_neg hm] at h
      cases h
      rfl

/-- C4 amended witness: on the pristine store, `add` commits, out-of-range
`set_frame 0` changes nothing, and `add_class` leaves the durable file
untouched. -/
theorem mutators_commit_witness :
    (add exStore 4 9 ("cat") [0, 0, 2, 0, 1, 2] true).disk =
      (add exStore 4 9 ("cat") [0, 0, 2, 0, 1, 2] true).mem ∧
    set_frame exStore 0 = exStore ∧
    exStoreP.disk = exStore.disk :=
  ⟨(mutators_commit exStore 4 9 0 1 2 ("cat") [0, 0, 2, 0, 1, 2] true none).1,
   (mutators_commit exStore 4 9 0 1 2 ("cat") [0, 0, 2, 0, 1, 2] true none).2.2.2.2.2.2.1
     (by decide),
   (mutators_commit exStore 4 9 0 1 2 ("person") [] true none).2.2.2.2.2.2.2.2
     exStoreP rfl⟩

/-- C8 counterexample: a session bound to the reserved temporary name itself
(as after loading a file literally named `.working.atc`): `save` of that very
name takes the bound-path no-op branch and returns successfully instead of
failing with `IllegalNameError`, refuting the unconditional reserved-name
rejection. -/
theorem save_temp_name_noop :
    save exSaveTemp TEMP_WORKING_FILENAME = Except.ok exSaveTemp ∧
    ¬ save exSaveTemp TEMP_WORKING_FILENAME = Except.error OpError.illegalName := by
  constructor
  · rfl
  · intro h
    rw [show save exSaveTemp TEMP_WORKING_FILENAME = Except.ok exSaveTemp from rfl] at h
    cases h

/-- C8 amended: `save` to the currently-bound path is a complete no-op (same
binding, file system and view, no error), and `save` to the reserved
temporary-working name fails with `IllegalNameError` before any rebinding or
copying whenever that name differs from the current binding — the bound-path
no-op check precedes the reserved-name check in the source. -/
theorem save_spec (s : SaveState) (path : String) :
    (save s s.filename = Except.ok s) ∧
    (path = TEMP_WORKING_FILENAME → ¬ path = s.filename →
      save s path = Except.error OpError.illegalName) := by
  constructor
  · simp [save]
  · intro h1 h2
    unfold save
    rw [if_neg h2, if_pos h1]

/-- C8 amended witness: on a session bound to `a.atc`, saving to `a.atc`
changes nothing and saving to `.working.atc` fails with the illegal-name
error. -/
theorem save_spec_witness :
    save exSaveNamed ("a.atc") = Except.ok exSaveNamed ∧
    save exSaveNamed TEMP_WORKING_FILENAME = Except.error OpError.illegalName :=
  ⟨(save_spec exSaveNamed ("a.atc")).1,
   (save_spec exSaveNamed TEMP_WORKING_FILENAME).2 rfl (by decide)⟩

/-- C1: for positive ids `a`, `b` that both have records and never share a
frame, `combine_objects(a, b)` succeeds; afterwards `a` occupies no frame,
`b` occupies exactly the union of the two pre-merge occupancy sets, and —
given that `b`'s own records all carried class `c` before the merge — every
record keyed by `b` carries class `c`. -/
theorem combine_objects_merge (db : List FrameRecord) (a b : Int) (c : String)
    (ha : 0 < a) (hb : 0 < b)
    (hanon : ¬ recordsOf db a = [])
    (hbnon : ¬ recordsOf db b = [])
    (hdisj : ∀ r ∈ db, r.object = a → ∀ r2 ∈ db, r2.object = b → ¬ r2.frame = r.frame)
    (huni : ∀ r ∈ db, r.object = b → r.className = c) :
    ∃ db2, combine_objects db a b = Except.ok db2 ∧
      get_frames_indexes_of_id db2 a = [] ∧
      (∀ f, f ∈ get_frames_indexes_of_id db2 b ↔
        f ∈ get_frames_indexes_of_id db a ∨ f ∈ get_frames_indexes_of_id db b) ∧
      (∀ r ∈ db2, r.object = b → r.className = c) := by
  have h1 : ¬ (a ≤ 0 ∨ b ≤ 0) := by omega
  have hov : ¬ (db.any (fun r => r.object = a ∧
      db.any (fun s => s.object = b ∧ s.frame = r.frame)) = true) := by
    simp only [List.any_eq_true, decide_eq_true_eq]
    rintro ⟨r, hr, hro, r2, hr2, hr2o, hr2f⟩
    exact hdisj r hr hro r2 hr2 hr2o hr2f
  obtain ⟨r0, t, hcons⟩ := List.exists_cons_of_ne_nil hbnon
  have hr0 : r0 ∈ db ∧ r0.object = b := by
    have hm : r0 ∈ recordsOf db b := by
      rw [hcons]
      exact List.mem_cons_self _ _
    simpa only [recordsOf, List.mem_filter, decide_eq_true_eq] using hm
  have hne : ¬ a = b := by
    intro heq
    obtain ⟨r, hrm⟩ := List.exists_mem_of_ne_nil _ hanon
    have hrdb : r ∈ db ∧ r.object = a := by
      simpa only [recordsOf, List.mem_filter, decide_eq_true_eq] using hrm
    exact hdisj r hrdb.1 hrdb.2 r hrdb.1 (hrdb.2.trans heq) rfl
  refine ⟨db.map (fun r =>
      if r.object = a then { r with object := b, className := r0.className } else r),
    ?_, ?_, ?_, ?_⟩
  · unfold combine_objects
    rw [if_neg h1, if_neg hanon, if_neg hbnon, if_neg hov, hcons]
  · simp only [get_frames_indexes_of_id]
    rw [List.filter_eq_nil_iff.mpr ?_]
    · rfl
    · intro x hx
      obtain ⟨r, hr, hφ⟩ := List.mem_map.mp hx
      subst hφ
      by_cases hro : r.object = a
      · simp only [if_pos hro, decide_eq_true_eq]
        intro hba
        exact hne hba.symm
      · simp only [if_neg hro, decide_eq_true_eq]
        exact hro
  · intro f
    simp only [get_frames_indexes_of_id, List.mem_map, List.mem_filter,
      decide_eq_true_eq]
    constructor
    · rintro ⟨x, ⟨⟨r, hr, hφ⟩, hxo⟩, hxf⟩
      subst hφ
      by_cases hro : r.object = a
      · rw [if_pos hro] at hxf
        exact Or.inl ⟨r, ⟨hr, hro⟩, hxf⟩
      · rw [if_neg hro] at hxo hxf
        exact Or.inr ⟨r, ⟨hr, hxo⟩, hxf⟩
    · rintro (⟨r, ⟨hr, hro⟩, hrf⟩ | ⟨r, ⟨hr, hro⟩, hrf⟩)
      · refine ⟨_, ⟨⟨r, hr, rfl⟩, ?_⟩, ?_⟩
        · rw [if_pos hro]
        · rw [if_pos hro]
          exact hrf
      · have hra : ¬ r.object = a := by
          rw [hro]
          intro hba
          exact hne hba.symm
        refine ⟨_, ⟨⟨r, hr, rfl⟩, ?_⟩, ?_⟩
        · rw [if_neg hra]
          exact hro
        · rw [if_neg hra]
          exact hrf
  · intro x hx hxo
    obtain ⟨r, hr, hφ⟩ := List.mem_map.mp hx
    subst hφ
    by_cases hro : r.object = a
    · rw [if_pos hro]
      exact huni r0 hr0.1 hr0.2
    · rw [if_neg hro] at hxo ⊢
      exact huni r hr hxo

/-- C1 witness: merging object 1 (frame 1, class cat) into object 2 (frame 2,
class dog) succeeds; object 1 then occupies nothing, object 2 occupies frames
1 and 2, and every surviving record of object 2 has class dog. -/
theorem combine_objects_merge_witness :
    ∃ db2, combine_objects exdb1 1 2 = Except.ok db2 ∧
      get_frames_indexes_of_id db2 1 = [] ∧
      ((1 : Int) ∈ get_frames_indexes_of_id db2 2 ∧
        (2 : Int) ∈ get_frames_indexes_of_id db2 2) ∧
      ∀ r ∈ db2, r.object = 2 → r.className = ("dog") := by
  obtain ⟨db2, h1, h2, h3, h4⟩ :=
    combine_objects_merge exdb1 1 2 ("dog") (by decide) (by decide) (by decide)
      (by decide) (by decide) (by decide)
  exact ⟨db2, h1, h2,
    ⟨(h3 1).mpr (Or.inl (by decide)), (h3 2).mpr (Or.inr (by decide))⟩, h4⟩

/-
Helper lemmas for the export round trip: the canvas shows the topmost color,
and the decode loop adds exactly one contribution per pixel.
-/

theorem paint_topmost (cm : Int → Int × Int × Int) (fill : String → Nat → Bool)
    (rs : List FrameRecord) (p : Nat) (o : Option Int) :
    rs.foldl (fun acc r => if fill r.contour p then cm r.object else acc)
      (o.elim (0, 0, 0) cm) =
    (rs.foldl (fun acc r => if fill r.contour p then some r.object else acc) o).elim
      (0, 0, 0) cm := by
  induction rs generalizing o with
  | nil => rfl
  | cons r rs ih =>
    simp only [List.foldl_cons]
    by_cases hf : fill r.contour p
    · rw [if_pos hf, if_pos hf]
      exact ih (some r.object)
    · rw [if_neg hf, if_neg hf]
      exact ih o

theorem paintPixel_topmost (cm : Int → Int × Int × Int) (fill : String → Nat → Bool)
    (rs : List FrameRecord) (p : Nat) :
    paintPixel cm fill rs p = (topmostObject fill rs p).elim (0, 0, 0) cm := by
  have h := paint_topmost cm fill rs p none
  simpa only [paintPixel, topmostObject, Option.elim] using h

theorem topmost_mem_aux (fill : String → Nat → Bool) (p : Nat)
    (rs : List FrameRecord) :
    ∀ (o : Option Int) (oid : Int),
      rs.foldl (fun acc r => if fill r.contour p then some r.object else acc) o =
        some oid →
      o = some oid ∨ ∃ r ∈ rs, r.object = oid := by
  induction rs with
  | nil => exact fun o oid h => Or.inl h
  | cons r rs ih =>
    intro o oid h
    simp only [List.foldl_cons] at h
    rcases ih _ oid h with h2 | h2
    · by_cases hf : fill r.contour p
      · rw [if_pos hf] at h2
        exact Or.inr ⟨r, List.mem_cons_self _ _, Option.some.inj h2⟩
      · rw [if_neg hf] at h2
        exact Or.inl h2
    · obtain ⟨r2, hr2, hro⟩ := h2
      exact Or.inr ⟨r2, List.mem_cons_of_mem _ hr2, hro⟩

theorem topmost_mem (fill : String → Nat → Bool) (p : Nat)
    (rs : List FrameRecord) (oid : Int)
    (h : topmostObject fill rs p = some oid) : ∃ r ∈ rs, r.object = oid := by
  rcases topmost_mem_aux fill p rs none oid h with h2 | h2
  · cases h2
  · exact h2

theorem decode_no_match (invMap : Int × Int × Int → Int) (col : Int × Int × Int) :
    ∀ (cs : List (Int × Int × Int)) (acc : Int), acc % 65536 = acc →
      (∀ c ∈ cs, ¬ col = c) →
      cs.foldl (fun a c => (a + (if col = c then invMap c else 0)) % 65536) acc = acc := by
  intro cs
  induction cs with
  | nil => exact fun acc _ _ => rfl
  | cons c cs ih =>
    intro acc hacc h
    simp only [List.foldl_cons]
    rw [if_neg (h c (List.mem_cons_self _ _)), add_zero, hacc]
    exact ih acc hacc (fun c2 hc2 => h c2 (List.mem_cons_of_mem _ hc2))

theorem decode_ids (cm : Int → Int × Int × Int) (invMap : Int × Int × Int → Int)
    (hinj : Function.Injective cm) :
    ∀ (ids : List Int) (oid : Int) (acc : Int), acc % 65536 = acc →
      ids.Nodup → oid ∈ ids →
      (ids.map cm).foldl (fun a c => (a + (if cm oid = c then invMap c else 0)) % 65536) acc =
        (acc + invMap (cm oid)) % 65536 := by
  intro ids
  induction ids with
  | nil => intro oid acc _ _ hmem; cases hmem
  | cons i ids ih =>
    intro oid acc hacc hnd hmem
    simp only [List.map_cons, List.foldl_cons]
    rcases List.mem_cons.mp hmem with h | h
    · subst h
      rw [if_pos rfl]
      apply decode_no_match
      · exact Int.emod_emod_of_dvd _ dvd_rfl
      · rintro c hc heq
        obtain ⟨j, hj, hcj⟩ := List.mem_map.mp hc
        have hji : oid = j := hinj (by rw [heq, hcj])
        subst hji
        exact (List.nodup_cons.mp hnd).1 hj
    · have hne : ¬ cm oid = cm i := by
        intro heq
        have : oid = i := hinj heq
        subst this
        exact (List.nodup_cons.mp hnd).1 h
      rw [if_neg hne, add_zero, hacc]
      exact ih oid acc hacc (List.nodup_cons.mp hnd).2 h

/-- C3 counterexample: one record for object 65536 under the bijective
colormap `exColormap` (with inverse `exInverse`): the covered pixel's 16-bit
label decodes to `(0 + 65536) % 2^16 = 0`, not the original object id 65536 —
the uint16 result image wraps, refuting the exact round-trip claim. -/
theorem export_decode_wraps :
    exInverse (exColormap 65536) = 65536 ∧
    topmostObject exFill exdbBig 0 = some 65536 ∧
    decodePixel exInverse (frame_colors exColormap exdbBig)
      (paintPixel exColormap exFill exdbBig 0) = 0 ∧
    ¬ (0 : Int) = 65536 := by
  refine ⟨by decide, by decide, by decide, by decide⟩

/-- C3 amended: export writes an artifact exactly for the requested frames
that have at least one record (empty frames are skipped, not errors); and for
a 16-bit label export under a colormap that is injective on object ids with
`inverse_colormap` as its inverse, every pixel covered by some polygon
decodes — via exact color match and the inverse colormap — to the object id
of the (topmost) record it was drawn for reduced modulo 2^16 (the uint16
image depth), hence to the exact original id whenever that id is below
65536; all provided the frame satisfies the one-record-per-object occupancy
invariant. -/
theorem export_spec (db : List FrameRecord) (frames : List Int)
    (colormap : Int → Int × Int × Int) (inverse_colormap : Int × Int × Int → Int)
    (fill : String → Nat → Bool)
    (hinj : Function.Injective colormap)
    (hinv : ∀ obj_id, inverse_colormap (colormap obj_id) = obj_id) :
    (∀ f, f ∈ exportedFrames db frames ↔ f ∈ frames ∧ ¬ get db f none = []) ∧
    (∀ f p obj_id,
      ((get db f none).map (fun r => r.object)).Nodup →
      topmostObject fill (get db f none) p = some obj_id →
      decodePixel inverse_colormap (frame_colors colormap (get db f none))
        (paintPixel colormap fill (get db f none) p) = obj_id % 65536) ∧
    (∀ f p obj_id,
      ((get db f none).map (fun r => r.object)).Nodup →
      topmostObject fill (get db f none) p = some obj_id →
      0 ≤ obj_id → obj_id < 65536 →
      decodePixel inverse_colormap (frame_colors colormap (get db f none))
        (paintPixel colormap fill (get db f none) p) = obj_id) := by
  have hdec : ∀ f p obj_id,
      ((get db f none).map (fun r => r.object)).Nodup →
      topmostObject fill (get db f none) p = some obj_id →
      decodePixel inverse_colormap (frame_colors colormap (get db f none))
        (paintPixel colormap fill (get db f none) p) = obj_id % 65536 := by
    intro f p oid hnd htop
    have hpaint : paintPixel colormap fill (get db f none) p = colormap oid := by
      rw [paintPixel_topmost, htop]
      rfl
    have hmem : oid ∈ (get db f none).map (fun r => r.object) := by
      obtain ⟨r, hr, hro⟩ := topmost_mem fill p _ oid htop
      exact List.mem_map.mpr ⟨r, hr, hro⟩
    have hcols : frame_colors colormap (get db f none) =
        ((get db f none).map (fun r => r.object)).map colormap := by
      rw [List.map_map]
      rfl
    rw [hpaint, hcols]
    have h := decode_ids colormap inverse_colormap hinj
      ((get db f none).map (fun r => r.object)) oid 0 (by decide) hnd hmem
    simp only [decodePixel]
    rw [h, hinv, zero_add]
  refine ⟨?_, hdec, ?_⟩
  · intro f
    simp [exportedFrames, List.mem_filter]
  · intro f p oid hnd htop h0 h1
    rw [hdec f p oid hnd htop]
    exact Int.emod_eq_of_lt h0 h1

/-- C3 amended witness: a store whose frame 1 holds one record for object 5
(an id below 2^16) and whose frame 2 is empty: export of frames [1, 2]
writes only frame 1, and a covered pixel of frame 1 decodes back to object
id 5 exactly. -/
theorem export_spec_witness :
    exportedFrames exdb3 [1, 2] = [1] ∧
    decodePixel exInverse (frame_colors exColormap (get exdb3 1 none))
      (paintPixel exColormap exFill (get exdb3 1 none) 0) = 5 := by
  constructor
  · decide
  · exact (export_spec exdb3 [1, 2] exColormap exInverse exFill
      (fun x y h => congrArg Prod.fst h) (fun _ => rfl)).2.2 1 0 5 (by decide) (by decide)
      (by decide) (by decide)
